import Mathlib

/-!
Verification development for the UL timetable companion's core logic:
the HTML timetable extractor (`scrape_timetable`), the calendar exporter's
occurrence expansion (`export_to_ical`), and the image renderer's
block-building logic (`generate_timetable_image`), shallowly embedded from
`src/scraper.py`.

The embedding boundary is at the HTML parser's output: a parsed timetable
table is given as its list of header texts (each `th`'s text, trimmed, in
document order) and its list of rows, each row a list of `td` cells, each
cell the list of its non-empty stripped text fragments, exactly what
BeautifulSoup's `get_text(strip=True)` / `stripped_strings` produce.
Machine arithmetic is exact (Python ints); dates are day counts in `Int`,
clock times are `(hour, minute)` pairs of `Nat`.
-/

set_option linter.unusedVariables false

/-- Model of one class entry as built by `scrape_timetable` (scraper.py:61-69).
The `time` field is always present (`cell_content[0]`); the other four are
`None` when the cell has too few fragments.  Extraction always stores every
key in the entry dict, so `none` here models a present key whose value is
Python `None` (which is what `event.get(k, default)` then returns). -/
structure ClassEntry where
  time : String
  course_code : Option String
  lecturer : Option String
  room : Option String
  weeks : Option String
deriving DecidableEq, Repr

/-- A timetable dict, modelled as an insertion-ordered association list,
mirroring Python's `dict` (one entry per key, first-insertion order). -/
abbrev Dict := List (String × List ClassEntry)

/-- Keys of a dict, in insertion order. -/
def keys (d : Dict) : List String := d.map Prod.fst

/-- Python `d[k]` lookup: the value stored under `k`, if any. -/
def dictGet? (d : Dict) (k : String) : Option (List ClassEntry) :=
  match d with
  | [] => none
  | (k0, v) :: rest => if k0 = k then some v else dictGet? rest k

/-- Overwrite the value stored under `k` in place (the key keeps its
insertion position); other entries are untouched. -/
def dictUpdate (d : Dict) (k : String) (v : List ClassEntry) : Dict :=
  match d with
  | [] => []
  | (k0, v0) :: rest =>
    if k0 = k then (k0, v) :: dictUpdate rest k v
    else (k0, v0) :: dictUpdate rest k v

/-- Python `d[k] = v`: overwrite in place when the key exists, otherwise
append at the end. -/
def dictSet (d : Dict) (k : String) (v : List ClassEntry) : Dict :=
  if k ∈ keys d then dictUpdate d k v else d ++ [(k, v)]

/-- Python `d[k].append(e)` on an existing key: extend the stored list in
place. -/
def dictAppend (d : Dict) (k : String) (e : ClassEntry) : Dict :=
  match d with
  | [] => []
  | (k0, v0) :: rest =>
    if k0 = k then (k0, v0 ++ [e]) :: dictAppend rest k e
    else (k0, v0) :: dictAppend rest k e

/-- The dict comprehension `{day: [] for day in headers}` (scraper.py:53). -/
def initDict (headers : List String) : Dict :=
  headers.foldl (fun d h => dictSet d h []) []

/-- First-occurrence deduplication: the key sequence a Python dict built by
iterating `l` ends up with (later duplicates overwrite the value but keep the
first occurrence's position). -/
def pyDedup (l : List String) : List String :=
  l.foldl (fun acc h => if h ∈ acc then acc else acc ++ [h]) []

/-- A parsed timetable table: trimmed texts of all `th` elements in document
order, and all `tr` rows, each row its `td` cells, each cell its list of
non-empty stripped text fragments. -/
structure TimetableTable where
  headers : List String
  trs : List (List (List String))

/-- Result of `scrape_timetable`: either the timetable dict or the
`{"error": msg}` dict. -/
inductive ScrapeResult where
  | ok (t : Dict)
  | error (msg : String)
deriving DecidableEq

/-- The per-cell entry builder (scraper.py:59-69): an empty cell yields no
entry; a non-empty cell yields exactly one entry with positional fields
`cell_content[i] if len(cell_content) > i else None`. -/
def cellEntry? : List String → Option ClassEntry
  | [] => none
  | f0 :: rest =>
    some { time := f0, course_code := rest[0]?, lecturer := rest[1]?,
           room := rest[2]?, weeks := rest[3]? }

/-- The inner cell loop `for day_index, cell in enumerate(cells)`
(scraper.py:58-70), carrying the running column index.  A non-empty cell at
an out-of-range column raises IndexError (`headers[day_index]`, message
`list index out of range`); a missing dict key would raise KeyError
(unreachable: the dict is initialized with every header as a key). -/
def processCells (headers : List String) (i : Nat) (d : Dict) :
    List (List String) → Except String Dict
  | [] => Except.ok d
  | cell :: rest =>
    match cellEntry? cell with
    | none => processCells headers (i + 1) d rest
    | some e =>
      match headers[i]? with
      | none => Except.error "list index out of range"
      | some h =>
        if h ∈ keys d then processCells headers (i + 1) (dictAppend d h e) rest
        else Except.error ("KeyError: " ++ h)

/-- The row loop `for row in rows` (scraper.py:56-70); any exception aborts
all remaining rows. -/
def processRows (headers : List String) (d : Dict) :
    List (List (List String)) → Except String Dict
  | [] => Except.ok d
  | row :: rest =>
    match processCells headers 0 d row with
    | Except.error msg => Except.error msg
    | Except.ok d2 => processRows headers d2 rest

/-- Model of `scrape_timetable` (scraper.py:40-76).  The input is the result
of `soup.find("table", {"id": "MainContent_StudentTimetableGridView"})`:
`none` when no such table exists.  `rows = find_all("tr")[1:]` drops the
first row; any exception in the row loop is converted to the
`Failed to parse timetable HTML:` error dict. -/
def scrape_timetable : Option TimetableTable → ScrapeResult
  | none => ScrapeResult.error "Timetable table not found in the HTML content"
  | some tbl =>
    match processRows tbl.headers (initDict tbl.headers) (tbl.trs.drop 1) with
    | Except.ok t => ScrapeResult.ok t
    | Except.error msg =>
      ScrapeResult.error ("Failed to parse timetable HTML: " ++ msg)

/-- Numeric value of an ASCII digit character. -/
def digitVal (c : Char) : Nat := c.toNat - 48

/-- Numeric value of a digit string, as Python `int()` of the matched group. -/
def digitsToNat (l : List Char) : Nat := l.foldl (fun n c => n * 10 + digitVal c) 0

/-- Match `(\d{1,2}):` at the head of the input, greedily preferring the
two-digit hour as Python's regex engine does, returning the hour value and
the rest after the colon. -/
def matchHourColon : List Char → Option (Nat × List Char)
  | a :: b :: c :: rest =>
    if a.isDigit && b.isDigit && c == ':' then
      some (digitVal a * 10 + digitVal b, rest)
    else if a.isDigit && b == ':' then some (digitVal a, c :: rest)
    else none
  | a :: b :: rest =>
    if a.isDigit && b == ':' then some (digitVal a, rest) else none
  | _ => none

/-- Match `(\d{2})` at the head of the input: exactly two digits. -/
def matchTwoDigits : List Char → Option (Nat × List Char)
  | a :: b :: rest =>
    if a.isDigit && b.isDigit then some (digitVal a * 10 + digitVal b, rest)
    else none
  | _ => none

/-- Match a literal hyphen at the head of the input. -/
def matchDash : List Char → Option (List Char)
  | '-' :: rest => some rest
  | _ => none

/-- Model of `re.match(r"(\d{1,2}):(\d{2})\s*-\s*(\d{1,2}):(\d{2})", time_str)`
(scraper.py:171 and 437): anchored at the start, trailing text allowed,
returning the four captured numbers `(start_hour, start_min, end_hour,
end_min)`. -/
def parseTimeRange (s : String) : Option (Nat × Nat × Nat × Nat) :=
  match matchHourColon s.toList with
  | none => none
  | some (sh, r1) =>
    match matchTwoDigits r1 with
    | none => none
    | some (sm, r2) =>
      match matchDash (r2.dropWhile Char.isWhitespace) with
      | none => none
      | some r4 =>
        match matchHourColon (r4.dropWhile Char.isWhitespace) with
        | none => none
        | some (eh, r6) =>
          match matchTwoDigits r6 with
          | none => none
          | some (em, _) => some (sh, sm, eh, em)

/-- Try `(\d+)-(\d+)` anchored at the head of the input: a maximal nonempty
digit run, a hyphen, a nonempty digit run. -/
def tryRangeAt (cs : List Char) : Option (Nat × Nat) :=
  let d1 := cs.takeWhile Char.isDigit
  if d1.isEmpty then none
  else
    match cs.dropWhile Char.isDigit with
    | '-' :: r2 =>
      let d2 := r2.takeWhile Char.isDigit
      if d2.isEmpty then none else some (digitsToNat d1, digitsToNat d2)
    | _ => none

/-- Scan for the first position where `(\d+)-(\d+)` matches, as `re.search`
does (retrying from every successive start position). -/
def searchRange : List Char → Option (Nat × Nat)
  | [] => none
  | c :: rest =>
    match tryRangeAt (c :: rest) with
    | some r => some r
    | none => searchRange rest

/-- Model of `re.search(r"(\d+)-(\d+)", weeks_str)` (scraper.py:184): first
match wins, groups converted by `int()`. -/
def findRange (s : String) : Option (Nat × Nat) := searchRange s.toList

/-- The fixed day-name mapping (scraper.py:143-146). -/
def day_map (day : String) : Option Nat :=
  if day = "Monday" then some 0
  else if day = "Tuesday" then some 1
  else if day = "Wednesday" then some 2
  else if day = "Thursday" then some 3
  else if day = "Friday" then some 4
  else if day = "Saturday" then some 5
  else if day = "Sunday" then some 6
  else none

/-- One concrete calendar occurrence: the event's course code, its date as a
day count (`semester_start` being day `semStart`), its start and end clock
times, and the week number for explicit-range occurrences (`none` for
occurrences coming from the weekly 12-count recurrence). -/
structure Occurrence where
  course_code : String
  date : Int
  startHour : Nat
  startMin : Nat
  endHour : Nat
  endMin : Nat
  week : Option Nat
deriving DecidableEq, Repr

/-- Per-entry expansion logic of `export_to_ical` (scraper.py:164-235).

* an entry with falsy `course_code` (`None` or `""`) is skipped;
* a `time` not matching the time pattern is skipped with a warning;
* `event_date.replace(hour=..., minute=..., second=0)` raises `ValueError`
  when the regex-captured hour exceeds 23 or minute exceeds 59
  (`datetime.replace` validates its fields), modelled as an error;
* `event.get("weeks", "")` returns the stored value, which is `None` for an
  entry whose cell lacked a fifth fragment, and `re.search` on `None` raises
  `TypeError`, modelled as an error;
* a `(\d+)-(\d+)` match `N-M` produces one dated event per week in
  `range(N, M+1)` at `semester_start + weekday + (w-1)*7` days;
* otherwise a single weekly event with `rrule count=12` is emitted, whose
  twelve occurrences fall 7 days apart from the first computed date. -/
def expandEntry (semStart : Int) (weekday : Nat) (e : ClassEntry) :
    Except String (List Occurrence) :=
  match e.course_code with
  | none => Except.ok []
  | some cc =>
    if cc = "" then Except.ok []
    else
      match parseTimeRange e.time with
      | none => Except.ok []
      | some (sh, sm, eh, em) =>
        if 23 < sh ∨ 59 < sm then Except.error "hour must be in 0..23"
        else if 23 < eh ∨ 59 < em then Except.error "hour must be in 0..23"
        else
          match e.weeks with
          | none => Except.error "expected string or bytes-like object"
          | some ws =>
            match findRange ws with
            | some (n, m) =>
              Except.ok ((List.range' n (m + 1 - n)).map (fun (w : Nat) =>
                { course_code := cc,
                  date := semStart + (weekday : Int) + ((w : Int) - 1) * 7,
                  startHour := sh, startMin := sm, endHour := eh, endMin := em,
                  week := some w }))
            | none =>
              Except.ok ((List.range 12).map (fun (i : Nat) =>
                { course_code := cc,
                  date := semStart + (weekday : Int) + 7 * (i : Int),
                  startHour := sh, startMin := sm, endHour := eh, endMin := em,
                  week := none }))

/-- The `for event in events` loop of `export_to_ical`; an exception aborts
the whole export. -/
def expandEntries (semStart : Int) (weekday : Nat) :
    List ClassEntry → Except String (List Occurrence)
  | [] => Except.ok []
  | e :: rest =>
    match expandEntry semStart weekday e with
    | Except.error msg => Except.error msg
    | Except.ok os =>
      match expandEntries semStart weekday rest with
      | Except.error msg => Except.error msg
      | Except.ok more => Except.ok (os ++ more)

/-- The `for day, events in timetable.items()` loop of `export_to_ical`
(scraper.py:149-235): empty days and day names outside `day_map` are
skipped. -/
def exportDays (semStart : Int) : Dict → Except String (List Occurrence)
  | [] => Except.ok []
  | (day, events) :: rest =>
    if events = [] then exportDays semStart rest
    else
      match day_map day with
      | none => exportDays semStart rest
      | some wd =>
        match expandEntries semStart wd events with
        | Except.error msg => Except.error msg
        | Except.ok os =>
          match exportDays semStart rest with
          | Except.error msg => Except.error msg
          | Except.ok more => Except.ok (os ++ more)

/-- Model of `export_to_ical` (scraper.py:124-246): the list of occurrences
written to the calendar file, or `none` when any exception reaches the
function's blanket `except` (which logs and returns Python `None`). -/
def export_to_ical (timetable : Dict) (semStart : Int) : Option (List Occurrence) :=
  match exportDays semStart timetable with
  | Except.ok os => some os
  | Except.error _ => none

/-- One block drawn on the timetable image: its day column, course code,
room, and clipped start/end times in minutes from midnight. -/
structure Block where
  dayIndex : Nat
  course_code : String
  room : Option String
  startMinutes : Nat
  endMinutes : Nat
deriving DecidableEq, Repr

/-- Per-entry block-building logic of `generate_timetable_image`
(scraper.py:430-464): skip falsy `course_code`, skip unparsable times, drop
events outside the 9:00-18:00 window, clip partial overlaps to the window.
Times are compared in exact minutes (the source's `hour + minute/60` float
comparisons against 9 and 18 decide identically).  The renderer never reads
`weeks` and tolerates `None` lecturer and room, so it never raises. -/
def renderEntry (dayIndex : Nat) (e : ClassEntry) : List Block :=
  match e.course_code with
  | none => []
  | some cc =>
    if cc = "" then []
    else
      match parseTimeRange e.time with
      | none => []
      | some (sh, sm, eh, em) =>
        let st := sh * 60 + sm
        let en := eh * 60 + em
        if en < 540 ∨ 1080 < st then []
        else [{ dayIndex := dayIndex, course_code := cc, room := e.room,
                startMinutes := max st 540, endMinutes := min en 1080 }]

/-- Model of the occurrence-building part of `generate_timetable_image`
(scraper.py:310-464): the blocks drawn, over the non-empty days in order. -/
def generate_blocks (timetable : Dict) : List Block :=
  ((timetable.filter (fun p => !p.2.isEmpty)).enum).flatMap
    (fun p => p.2.2.flatMap (fun e => renderEntry p.1 e))

/-- Reference characterization, following the spec's words, of the entries
appended to a row's cells under header name `k`: one entry per non-empty
cell whose column position `i` carries header `k`, in cell order. -/
def specRowEntries (headers : List String) (i : Nat) (k : String) :
    List (List String) → List ClassEntry
  | [] => []
  | cell :: rest =>
    (match cellEntry? cell with
     | some e => if headers[i]? = some k then [e] else []
     | none => []) ++ specRowEntries headers (i + 1) k rest

/-- Reference characterization, following the spec's words, of all entries
collected under header name `k` across the data rows, in row order then
column order. -/
def specEntriesForKey (headers : List String) (k : String) :
    List (List (List String)) → List ClassEntry
  | [] => []
  | row :: rest => specRowEntries headers 0 k row ++ specEntriesForKey headers k rest

/-- An extracted entry whose cell had only a time and a course code: the
`lecturer`, `room` and `weeks` keys all hold `None`. -/
def entryC1 : ClassEntry :=
  { time := "09:00 - 10:00", course_code := some "CS4141",
    lecturer := none, room := none, weeks := none }

/-- A table whose data row has two `td` cells against one header, the extra
cell being empty. -/
def tblC2 : TimetableTable := ⟨["Monday"], [[], [["9:00 - 10:00"], []]]⟩

/-- A table whose data row has a non-empty second `td` cell against a single
header. -/
def tblC2w : TimetableTable := ⟨["Monday"], [[], [["x"], ["9:00"]]]⟩

/-- An entry whose time matches the time pattern with an out-of-range hour
and whose weeks field carries the explicit range 1-2. -/
def entryC5bad : ClassEntry :=
  { time := "25:00 - 26:00", course_code := some "CS101",
    lecturer := none, room := none, weeks := some "Weeks 1-2" }

/-- A fully populated entry with the explicit week range 3-5. -/
def entryC5 : ClassEntry :=
  { time := "9:00 - 10:00", course_code := some "CS101",
    lecturer := some "Dr. Smith", room := some "Room A1", weeks := some "Weeks 3-5" }

/-- An entry whose time has an out-of-range hour and whose weeks string has
no digits-hyphen-digits match. -/
def entryC6bad : ClassEntry :=
  { time := "25:00 - 26:00", course_code := some "CS101",
    lecturer := none, room := none, weeks := some "every week" }

/-- An entry with a valid time whose weeks string has no
digits-hyphen-digits match. -/
def entryC6 : ClassEntry :=
  { time := "11:00 - 12:30", course_code := some "CS102",
    lecturer := none, room := some "Room B2", weeks := some "every week" }

/-- An entry with an empty course code but otherwise valid fields. -/
def entryC7 : ClassEntry :=
  { time := "9:00 - 10:00", course_code := some "",
    lecturer := some "Dr. X", room := some "R1", weeks := some "Weeks 1-12" }

/-- A table with a duplicated header name and one data row populating all
three columns. -/
def tblC8 : TimetableTable :=
  ⟨["Monday", "Tuesday", "Monday"], [[], [["t1"], ["t2"], ["t3"]]]⟩

/-- The timetable dict that extraction produces from `tblC8`: both Monday
columns append into the single "Monday" list. -/
def dictC8 : Dict :=
  [("Monday", [{ time := "t1", course_code := none, lecturer := none,
                 room := none, weeks := none },
               { time := "t3", course_code := none, lecturer := none,
                 room := none, weeks := none }]),
   ("Tuesday", [{ time := "t2", course_code := none, lecturer := none,
                  room := none, weeks := none }])]

/-- An entry with an out-of-range hour and the reversed week range 5-3. -/
def entryC10bad : ClassEntry :=
  { time := "25:00 - 26:00", course_code := some "CS101",
    lecturer := none, room := none, weeks := some "Weeks 5-3" }

/-- An entry with a valid time and the reversed week range 5-3. -/
def entryC10 : ClassEntry :=
  { time := "9:00 - 10:00", course_code := some "CS101",
    lecturer := none, room := none, weeks := some "Weeks 5-3" }

/-- C3: extraction on an HTML document containing no table with the fixed
timetable identifier returns exactly the `Timetable table not found in the
HTML content` error result, and (being a total function) never raises. -/
theorem c3_table_not_found :
    scrape_timetable none =
      ScrapeResult.error "Timetable table not found in the HTML content" := rfl

/-- C9: extraction is deterministic — two invocations of the extractor on
equal inputs return equal results, with no dependence on outside state. -/
theorem c9_extraction_deterministic (d1 d2 : Option TimetableTable)
    (h : d1 = d2) : scrape_timetable d1 = scrape_timetable d2 := by rw [h]

/-- Witness for C9 at a concrete input. -/
theorem c9_extraction_deterministic_witness :
    scrape_timetable none = scrape_timetable none :=
  c9_extraction_deterministic none none rfl

/-- C4: a non-empty cell with fragments `f0, f1, ...` yields exactly one
entry with `time = f0` and the positional optional fields (`none` past the
end, never an error); fragments beyond the fifth are ignored (the entry only
depends on the first five fragments); an empty cell yields no entry. -/
theorem c4_positional_fields :
    (∀ (f0 : String) (rest : List String), cellEntry? (f0 :: rest) =
      some { time := f0, course_code := rest[0]?, lecturer := rest[1]?,
             room := rest[2]?, weeks := rest[3]? }) ∧
    cellEntry? [] = none ∧
    (∀ cell : List String, cellEntry? cell = cellEntry? (cell.take 5)) := by
  refine ⟨fun f0 rest => rfl, rfl, fun cell => ?_⟩
  match cell with
  | [] => rfl
  | [f0] => rfl
  | [f0, f1] => rfl
  | [f0, f1, f2] => rfl
  | [f0, f1, f2, f3] => rfl
  | [f0, f1, f2, f3, f4] => rfl
  | f0 :: f1 :: f2 :: f3 :: f4 :: f5 :: rest => rfl

/-- C1: the claim fails on the code.  For an extracted entry with a
non-empty course code, a parsable time, and `weeks = None`, the calendar
exporter evaluates `re.search(r"(\d+)-(\d+)", None)` (because
`event.get("weeks", "")` returns the stored `None`, not the default), which
raises `TypeError`; the blanket `except` turns the whole export into the
generic failure branch (`return None`).  The image renderer, which never
reads `weeks`, does handle the same entry without fault. -/
theorem c1_null_weeks_faults :
    export_to_ical [("Monday", [entryC1])] 0 = none ∧
    expandEntry 0 0 entryC1 = Except.error "expected string or bytes-like object" ∧
    generate_blocks [("Monday", [entryC1])] =
      [{ dayIndex := 0, course_code := "CS4141", room := none,
         startMinutes := 540, endMinutes := 600 }] := ⟨rfl, rfl, rfl⟩

/-- C2 counterexample: a document whose data row has more `td` cells (2)
than there are `th` headers (1) on which extraction nevertheless succeeds —
the extra cell is empty, so the out-of-range column is never referenced and
the cell is silently dropped, refuting the claim as stated. -/
theorem c2_counterexample :
    (∃ row ∈ tblC2.trs.drop 1, tblC2.headers.length < row.length) ∧
    scrape_timetable (some tblC2) =
      ScrapeResult.ok
        [("Monday", [⟨"9:00 - 10:00", none, none, none, none⟩])] :=
  ⟨by decide, rfl⟩

/-- C7: an entry whose course code is `None` or the empty string is skipped
entirely by both the calendar exporter's and the image renderer's per-entry
logic, regardless of its other fields. -/
theorem c7_empty_course_skipped (semStart : Int) (wd i : Nat) (e : ClassEntry)
    (h : e.course_code = none ∨ e.course_code = some "") :
    expandEntry semStart wd e = Except.ok [] ∧ renderEntry i e = [] := by
  rcases h with h | h <;> simp [expandEntry, renderEntry, h]

/-- Witness for C7 at a concrete entry with an empty course code. -/
theorem c7_empty_course_skipped_witness :
    expandEntry 0 0 entryC7 = Except.ok [] ∧ renderEntry 0 entryC7 = [] :=
  c7_empty_course_skipped 0 0 0 entryC7 (Or.inr rfl)

/-- Helper: exporting a one-day, one-entry timetable with a recognized day
name yields exactly that entry's expansion. -/
theorem export_singleton (semStart : Int) (day : String) (wd : Nat)
    (e : ClassEntry) (os : List Occurrence) (hd : day_map day = some wd)
    (he : expandEntry semStart wd e = Except.ok os) :
    export_to_ical [(day, [e])] semStart = some os := by
  simp [export_to_ical, exportDays, expandEntries, hd, he]

/-- C5 counterexample: the claim as stated fails on the code.  The time
`25:00 - 26:00` matches the time pattern (so the entry has "a parsable
time") and the weeks field carries the explicit range 1-2, yet export
produces no occurrences at all: `datetime.replace(hour=25)` raises
`ValueError`, which the blanket `except` turns into a failed export. -/
theorem c5_counterexample :
    parseTimeRange entryC5bad.time = some (25, 0, 26, 0) ∧
    findRange "Weeks 1-2" = some (1, 2) ∧
    export_to_ical [("Monday", [entryC5bad])] 0 = none := ⟨rfl, rfl, rfl⟩

/-- C5 (amended): for an entry with a non-empty course code, a time matching
the pattern whose parsed hours are at most 23 and minutes at most 59, a day
name in the Monday=0..Sunday=6 mapping, and a weeks field whose first
digits-hyphen-digits match is `N-M` with `N ≤ M`, export generates exactly
`M - N + 1` occurrences, one per week `w` in `[N, M]`, each dated
`semester_start + weekday_offset + (w - 1) * 7` days with the parsed start
and end times of day. -/
theorem c5_week_range_occurrences (semStart : Int) (day : String) (wd : Nat)
    (e : ClassEntry) (cc ws : String) (sh sm eh em n m : Nat)
    (hcc : e.course_code = some cc) (hne : cc ≠ "")
    (ht : parseTimeRange e.time = some (sh, sm, eh, em))
    (hsh : sh ≤ 23) (hsm : sm ≤ 59) (heh : eh ≤ 23) (hem : em ≤ 59)
    (hw : e.weeks = some ws) (hr : findRange ws = some (n, m)) (hnm : n ≤ m)
    (hd : day_map day = some wd) :
    export_to_ical [(day, [e])] semStart =
      some ((List.range' n (m + 1 - n)).map (fun (w : Nat) =>
        { course_code := cc, date := semStart + (wd : Int) + ((w : Int) - 1) * 7,
          startHour := sh, startMin := sm, endHour := eh, endMin := em,
          week := some w })) ∧
    (List.range' n (m + 1 - n)).length = m - n + 1 := by
  constructor
  · apply export_singleton _ _ _ _ _ hd
    simp only [expandEntry, hcc, ht, hw, hr]
    rw [if_neg hne, if_neg (show ¬(23 < sh ∨ 59 < sm) by omega),
       if_neg (show ¬(23 < eh ∨ 59 < em) by omega)]
  · rw [List.length_range']; omega

/-- Witness for the amended C5 at the spec's own example: `Weeks 3-5` on a
Wednesday produces three occurrences dated 16, 23 and 30 days after the
semester start Monday (day 0). -/
theorem c5_week_range_occurrences_witness :
    export_to_ical [("Wednesday", [entryC5])] 0 =
      some ((List.range' 3 (5 + 1 - 3)).map (fun (w : Nat) =>
        { course_code := "CS101",
          date := (0 : Int) + ((2 : Nat) : Int) + ((w : Int) - 1) * 7,
          startHour := 9, startMin := 0, endHour := 10, endMin := 0,
          week := some w })) ∧
    (List.range' 3 (5 + 1 - 3)).length = 5 - 3 + 1 :=
  c5_week_range_occurrences 0 "Wednesday" 2 entryC5 "CS101" "Weeks 3-5" 9 0 10 0 3 5
    rfl (by decide) rfl (by decide) (by decide) (by decide) (by decide) rfl rfl
    (by decide) (by decide)

/-- C6 counterexample: the claim as stated fails on the code.  The time
`25:00 - 26:00` matches the time pattern and the weeks string `every week`
yields no digits-hyphen-digits match, yet export does not fall back to 12
weekly occurrences: `datetime.replace(hour=25)` raises `ValueError` and the
whole export fails. -/
theorem c6_counterexample :
    parseTimeRange entryC6bad.time = some (25, 0, 26, 0) ∧
    findRange "every week" = none ∧
    export_to_ical [("Monday", [entryC6bad])] 0 = none := ⟨rfl, rfl, rfl⟩

/-- C6 (amended): for an entry with a non-empty course code, a time matching
the pattern whose parsed hours are at most 23 and minutes at most 59, a
recognized day name, and a weeks string with no digits-hyphen-digits match,
export falls back (not an error) to exactly 12 weekly occurrences starting
from the entry's first computed date, 7 days apart. -/
theorem c6_no_range_fallback_twelve (semStart : Int) (day : String) (wd : Nat)
    (e : ClassEntry) (cc ws : String) (sh sm eh em : Nat)
    (hcc : e.course_code = some cc) (hne : cc ≠ "")
    (ht : parseTimeRange e.time = some (sh, sm, eh, em))
    (hsh : sh ≤ 23) (hsm : sm ≤ 59) (heh : eh ≤ 23) (hem : em ≤ 59)
    (hw : e.weeks = some ws) (hr : findRange ws = none)
    (hd : day_map day = some wd) :
    export_to_ical [(day, [e])] semStart =
      some ((List.range 12).map (fun (i : Nat) =>
        { course_code := cc, date := semStart + (wd : Int) + 7 * (i : Int),
          startHour := sh, startMin := sm, endHour := eh, endMin := em,
          week := none })) ∧
    (List.range 12).length = 12 := by
  constructor
  · apply export_singleton _ _ _ _ _ hd
    simp only [expandEntry, hcc, ht, hw, hr]
    rw [if_neg hne, if_neg (show ¬(23 < sh ∨ 59 < sm) by omega),
       if_neg (show ¬(23 < eh ∨ 59 < em) by omega)]
  · rw [List.length_range]

/-- Witness for the amended C6: an entry with no parsable week range
expands to 12 weekly occurrences. -/
theorem c6_no_range_fallback_twelve_witness :
    export_to_ical [("Friday", [entryC6])] 0 =
      some ((List.range 12).map (fun (i : Nat) =>
        { course_code := "CS102",
          date := (0 : Int) + ((4 : Nat) : Int) + 7 * (i : Int),
          startHour := 11, startMin := 0, endHour := 12, endMin := 30,
          week := none })) ∧
    (List.range 12).length = 12 :=
  c6_no_range_fallback_twelve 0 "Friday" 4 entryC6 "CS102" "every week" 11 0 12 30
    rfl (by decide) rfl (by decide) (by decide) (by decide) (by decide) rfl rfl
    (by decide)

/-- C10 counterexample: the claim as stated fails on the code.  An entry
whose weeks field's first digits-hyphen-digits match is the reversed range
5-3 can still trigger an error rather than silently producing zero
occurrences: with the pattern-matching time `25:00 - 26:00`,
`datetime.replace(hour=25)` raises before the weeks logic runs and the whole
export fails. -/
theorem c10_counterexample :
    findRange "Weeks 5-3" = some (5, 3) ∧
    expandEntry 0 0 entryC10bad = Except.error "hour must be in 0..23" ∧
    export_to_ical [("Monday", [entryC10bad])] 0 = none := ⟨rfl, rfl, rfl⟩

/-- C10 (amended): for an entry whose weeks field's first
digits-hyphen-digits match is `N-M` with `N > M`, and whose time — if it
matches the time pattern at all — parses to in-range clock values, export
generates zero occurrences for the entry: the empty `range(N, M+1)` neither
raises nor falls back to the 12-occurrence recurrence, so the entry silently
disappears from the calendar. -/
theorem c10_reversed_range_empty (semStart : Int) (day : String) (wd : Nat)
    (e : ClassEntry) (ws : String) (n m : Nat)
    (hw : e.weeks = some ws) (hr : findRange ws = some (n, m)) (hmn : m < n)
    (hvalid : ∀ sh sm eh em : Nat, parseTimeRange e.time = some (sh, sm, eh, em) →
      sh ≤ 23 ∧ sm ≤ 59 ∧ eh ≤ 23 ∧ em ≤ 59)
    (hd : day_map day = some wd) :
    expandEntry semStart wd e = Except.ok [] ∧
    export_to_ical [(day, [e])] semStart = some [] := by
  have he : expandEntry semStart wd e = Except.ok [] := by
    cases hcc : e.course_code with
    | none => simp [expandEntry, hcc]
    | some cc =>
      by_cases hne : cc = ""
      · simp [expandEntry, hcc, hne]
      · cases hpt : parseTimeRange e.time with
        | none => simp [expandEntry, hcc, hne, hpt]
        | some q =>
          obtain ⟨sh, sm, eh, em⟩ := q
          obtain ⟨h1, h2, h3, h4⟩ := hvalid sh sm eh em hpt
          have hz : m + 1 - n = 0 := by omega
          simp only [expandEntry, hcc, hpt, hw, hr, hz]
          rw [if_neg hne, if_neg (show ¬(23 < sh ∨ 59 < sm) by omega),
             if_neg (show ¬(23 < eh ∨ 59 < em) by omega)]
          rfl
  exact ⟨he, export_singleton _ _ _ _ _ hd he⟩

/-- Helper: `dictAppend` never changes the key sequence. -/
theorem keys_dictAppend (d : Dict) (k : String) (e : ClassEntry) :
    keys (dictAppend d k e) = keys d := by
  induction d with
  | nil => rfl
  | cons p rest ih =>
    obtain ⟨k0, v0⟩ := p
    by_cases h : k0 = k <;> simp [dictAppend, keys, h] <;> simpa [keys] using ih

/-- Helper: lookup after `dictAppend` — the appended key's list grows by the
entry, every other key is untouched. -/
theorem dictGet?_dictAppend (d : Dict) (k : String) (e : ClassEntry) (k' : String) :
    dictGet? (dictAppend d k e) k' =
      if k' = k then (dictGet? d k').map (fun l => l ++ [e])
      else dictGet? d k' := by
  induction d with
  | nil => by_cases h : k' = k <;> simp [dictAppend, dictGet?, h]
  | cons p rest ih =>
    obtain ⟨k0, v0⟩ := p
    by_cases h0 : k0 = k
    · subst h0
      by_cases h1 : k0 = k'
      · subst h1
        simp [dictAppend, dictGet?]
      · simp [dictAppend, dictGet?, h1, Ne.symm h1, ih]
    · by_cases h1 : k0 = k'
      · subst h1
        simp [dictAppend, dictGet?, h0, Ne.symm h0]
      · simp [dictAppend, dictGet?, h0, h1, ih]

/-- Helper: lookup after a positional in-place update of key `k`. -/
theorem dictGet?_update (d : Dict) (k : String) (v : List ClassEntry) (k' : String) :
    dictGet? (dictUpdate d k v) k' =
      if k' = k then (dictGet? d k).map (fun _ => v) else dictGet? d k' := by
  induction d with
  | nil => by_cases h : k' = k <;> simp [dictUpdate, dictGet?, h]
  | cons p rest ih =>
    obtain ⟨k0, v0⟩ := p
    by_cases h0 : k0 = k
    · subst h0
      by_cases h1 : k0 = k'
      · subst h1
        simp [dictUpdate, dictGet?]
      · simp [dictUpdate, dictGet?, h1, Ne.symm h1, ih]
    · by_cases h1 : k0 = k'
      · subst h1
        simp [dictUpdate, dictGet?, h0, Ne.symm h0]
      · simp [dictUpdate, dictGet?, h0, h1, ih]

/-- Helper: a key is absent from the key sequence exactly when lookup finds
nothing. -/
theorem dictGet?_eq_none_iff (d : Dict) (k : String) :
    dictGet? d k = none ↔ k ∉ keys d := by
  induction d with
  | nil => simp [dictGet?, keys]
  | cons p rest ih =>
    obtain ⟨k0, v0⟩ := p
    by_cases h : k0 = k
    · subst h
      simp [dictGet?, keys]
    · simp [dictGet?, keys, h, Ne.symm h, ih]

/-- Helper: lookup distributes over dict concatenation, first hit wins. -/
theorem dictGet?_append (d1 d2 : Dict) (k : String) :
    dictGet? (d1 ++ d2) k =
      match dictGet? d1 k with
      | some v => some v
      | none => dictGet? d2 k := by
  induction d1 with
  | nil => simp [dictGet?]
  | cons p rest ih =>
    by_cases h : p.1 = k <;> simp [dictGet?, h, ih]

/-- Helper: `dictUpdate` never changes the key sequence. -/
theorem keys_dictUpdate (d : Dict) (k : String) (v : List ClassEntry) :
    keys (dictUpdate d k v) = keys d := by
  induction d with
  | nil => rfl
  | cons p rest ih =>
    obtain ⟨k0, v0⟩ := p
    by_cases h : k0 = k <;> simp [dictUpdate, keys, h] <;> simpa [keys] using ih

/-- Helper: appending a fresh pair extends the key sequence by its key. -/
theorem keys_append_single (d : Dict) (k : String) (v : List ClassEntry) :
    keys (d ++ [(k, v)]) = keys d ++ [k] := by
  simp [keys]

/-- Helper: `dictSet` keeps the key sequence when the key exists and appends
the key otherwise. -/
theorem keys_dictSet (d : Dict) (k : String) (v : List ClassEntry) :
    keys (dictSet d k v) = if k ∈ keys d then keys d else keys d ++ [k] := by
  unfold dictSet
  by_cases hmem : k ∈ keys d
  · rw [if_pos hmem, if_pos hmem, keys_dictUpdate]
  · rw [if_neg hmem, if_neg hmem, keys_append_single]

/-- Helper: lookup after `dictSet` sees the new value at the key and the
old dict elsewhere. -/
theorem dictGet?_dictSet (d : Dict) (k : String) (v : List ClassEntry) (k' : String) :
    dictGet? (dictSet d k v) k' = if k' = k then some v else dictGet? d k' := by
  unfold dictSet
  by_cases hmem : k ∈ keys d
  · rw [if_pos hmem, dictGet?_update]
    by_cases h : k' = k <;> simp only [h, if_pos, if_neg]
    · cases hq : dictGet? d k with
      | none => exact absurd ((dictGet?_eq_none_iff d k).mp hq) (by simpa using hmem)
      | some w => simp
    · simp [h]
  · rw [if_neg hmem, dictGet?_append]
    by_cases h : k' = k
    · subst h
      rw [(dictGet?_eq_none_iff d k').mpr hmem]
      simp [dictGet?]
    · cases hq : dictGet? d k' <;> simp [dictGet?, h, Ne.symm h]

/-- Helper: the key sequence of the initialization fold mirrors the
first-occurrence deduplication fold. -/
theorem initFold_keys (hs : List String) : ∀ d : Dict,
    keys (hs.foldl (fun d h => dictSet d h []) d) =
      hs.foldl (fun acc h => if h ∈ acc then acc else acc ++ [h]) (keys d) := by
  induction hs with
  | nil => intro d; rfl
  | cons h hs ih =>
    intro d
    simp only [List.foldl_cons]
    rw [ih, keys_dictSet]

/-- Helper: keys of `{day: [] for day in headers}` are the deduplicated
headers in first-occurrence order. -/
theorem keys_initDict (hs : List String) : keys (initDict hs) = pyDedup hs :=
  initFold_keys hs []

/-- Helper: lookup in the initialization fold. -/
theorem initFold_get? (hs : List String) : ∀ (d : Dict) (k : String),
    dictGet? (hs.foldl (fun d h => dictSet d h []) d) k =
      if k ∈ hs then some [] else dictGet? d k := by
  induction hs with
  | nil => intro d k; simp
  | cons h hs ih =>
    intro d k
    simp only [List.foldl_cons]
    rw [ih, dictGet?_dictSet]
    by_cases h1 : k ∈ hs <;> by_cases h2 : k = h <;> simp [h1, h2, List.mem_cons]

/-- Helper: every header is initialized to an empty list, and nothing else
is present. -/
theorem dictGet?_initDict (hs : List String) (k : String) :
    dictGet? (initDict hs) k = if k ∈ hs then some [] else none := by
  unfold initDict
  rw [initFold_get? hs [] k]
  rfl

/-- Helper: a non-empty cell always yields an entry. -/
theorem cellEntry?_ne_none (cell : List String) (h : cell ≠ []) :
    ∃ e, cellEntry? cell = some e := by
  cases cell with
  | nil => exact absurd rfl h
  | cons f0 rest => exact ⟨_, rfl⟩

/-- Helper: the cell loop faults whenever the tail (from running column
index `i0`) still holds a non-empty cell at an out-of-range column. -/
theorem processCells_oob (headers : List String) (row : List (List String)) :
    ∀ (i0 : Nat) (d : Dict),
    (∃ i cell, row[i]? = some cell ∧ cell ≠ [] ∧ headers.length ≤ i0 + i) →
    ∃ msg, processCells headers i0 d row = Except.error msg := by
  induction row with
  | nil =>
    rintro i0 d ⟨i, cell, hg, -, -⟩
    simp at hg
  | cons c rest ih =>
    rintro i0 d ⟨i, cell, hg, hne, hlen⟩
    cases i with
    | zero =>
      have hcc : c = cell := by simpa using hg
      obtain ⟨e, he⟩ := cellEntry?_ne_none c (by rw [hcc]; exact hne)
      have hh : headers[i0]? = none := List.getElem?_eq_none (by omega)
      exact ⟨"list index out of range", by simp [processCells, he, hh]⟩
    | succ j =>
      have hg' : rest[j]? = some cell := by simpa using hg
      cases hc : cellEntry? c with
      | none =>
        obtain ⟨msg, hm⟩ := ih (i0 + 1) d ⟨j, cell, hg', hne, by omega⟩
        exact ⟨msg, by simp [processCells, hc, hm]⟩
      | some e =>
        cases hh : headers[i0]? with
        | none => exact ⟨"list index out of range", by simp [processCells, hc, hh]⟩
        | some hname =>
          by_cases hk : hname ∈ keys d
          · obtain ⟨msg, hm⟩ :=
              ih (i0 + 1) (dictAppend d hname e) ⟨j, cell, hg', hne, by omega⟩
            exact ⟨msg, by simp [processCells, hc, hh, hk, hm]⟩
          · exact ⟨"KeyError: " ++ hname, by simp [processCells, hc, hh, hk]⟩

/-- Helper: the row loop faults whenever some row holds a non-empty cell at
an out-of-range column. -/
theorem processRows_oob (headers : List String) (rows : List (List (List String))) :
    ∀ d : Dict,
    (∃ row ∈ rows, ∃ i cell, row[i]? = some cell ∧ cell ≠ [] ∧ headers.length ≤ i) →
    ∃ msg, processRows headers d rows = Except.error msg := by
  induction rows with
  | nil => rintro d ⟨row, hmem, -⟩; simp at hmem
  | cons r rest ih =>
    rintro d ⟨row, hmem, i, cell, hg, hne, hlen⟩
    cases hpc : processCells headers 0 d r with
    | error msg => exact ⟨msg, by simp [processRows, hpc]⟩
    | ok d2 =>
      rcases List.mem_cons.mp hmem with hr | hr
      · subst hr
        obtain ⟨msg, hm⟩ := processCells_oob headers row 0 d ⟨i, cell, hg, hne, by omega⟩
        rw [hm] at hpc
        cases hpc
      · obtain ⟨msg, hm⟩ := ih d2 ⟨row, hr, i, cell, hg, hne, hlen⟩
        exact ⟨msg, by simp [processRows, hpc, hm]⟩

/-- C2 (amended): a document whose timetable table has some data row with a
NON-EMPTY `td` cell at a column index at or beyond the header count makes
extraction fail as a whole: the out-of-range `headers[day_index]` reference
raises inside the broad handler and the result is the
`Failed to parse timetable HTML:` error dict. -/
theorem c2_nonempty_out_of_range (tbl : TimetableTable)
    (h : ∃ row ∈ tbl.trs.drop 1, ∃ i cell,
      row[i]? = some cell ∧ cell ≠ [] ∧ tbl.headers.length ≤ i) :
    ∃ msg, scrape_timetable (some tbl) =
      ScrapeResult.error ("Failed to parse timetable HTML: " ++ msg) := by
  obtain ⟨msg, hm⟩ :=
    processRows_oob tbl.headers (tbl.trs.drop 1) (initDict tbl.headers) h
  exact ⟨msg, by simp only [scrape_timetable]; rw [hm]⟩

/-- Witness for the amended C2: a single-header table whose data row has a
non-empty second cell produces the parse-failure error result. -/
theorem c2_nonempty_out_of_range_witness :
    ∃ msg, scrape_timetable (some tblC2w) =
      ScrapeResult.error ("Failed to parse timetable HTML: " ++ msg) :=
  c2_nonempty_out_of_range tblC2w
    ⟨[["x"], ["9:00"]], by decide, 1, ["9:00"], by decide, by decide, by decide⟩

/-- Helper: a successful cell loop keeps the key sequence and appends under
each header exactly the entries of the spec's positional characterization. -/
theorem processCells_ok (headers : List String) (row : List (List String)) :
    ∀ (i : Nat) (d d2 : Dict) (k : String),
    processCells headers i d row = Except.ok d2 →
    keys d2 = keys d ∧
    dictGet? d2 k = (dictGet? d k).map (fun l => l ++ specRowEntries headers i k row) := by
  induction row with
  | nil =>
    intro i d d2 k h
    obtain rfl : d = d2 := by simpa [processCells] using h
    refine ⟨rfl, ?_⟩
    cases dictGet? d k <;> simp [specRowEntries]
  | cons c rest ih =>
    intro i d d2 k h
    cases hc : cellEntry? c with
    | none =>
      simp only [processCells, hc] at h
      obtain ⟨hk, hg⟩ := ih (i + 1) d d2 k h
      exact ⟨hk, by simpa [specRowEntries, hc] using hg⟩
    | some e =>
      cases hh : headers[i]? with
      | none => simp [processCells, hc, hh] at h
      | some hname =>
        simp only [processCells, hc, hh] at h
        by_cases hmem : hname ∈ keys d
        · rw [if_pos hmem] at h
          obtain ⟨hk, hg⟩ := ih (i + 1) (dictAppend d hname e) d2 k h
          refine ⟨hk.trans (keys_dictAppend d hname e), ?_⟩
          by_cases hk2 : k = hname
          · subst hk2
            rw [hg, dictGet?_dictAppend, if_pos rfl]
            cases hq : dictGet? d k <;> simp [specRowEntries, hc, hh, hq]
          · rw [hg, dictGet?_dictAppend, if_neg hk2]
            have hns : ¬ (headers[i]? = some k) := by
              rw [hh]
              exact fun hcon => hk2 (Option.some.inj hcon).symm
            cases hq : dictGet? d k <;> simp [specRowEntries, hc, hns, hq]
        · rw [if_neg hmem] at h
          cases h

/-- Helper: a successful row loop keeps the key sequence and appends all
rows' spec-characterized entries in row order. -/
theorem processRows_ok (headers : List String) (rows : List (List (List String))) :
    ∀ (d d2 : Dict) (k : String),
    processRows headers d rows = Except.ok d2 →
    keys d2 = keys d ∧
    dictGet? d2 k = (dictGet? d k).map (fun l => l ++ specEntriesForKey headers k rows) := by
  induction rows with
  | nil =>
    intro d d2 k h
    obtain rfl : d = d2 := by simpa [processRows] using h
    refine ⟨rfl, ?_⟩
    cases dictGet? d k <;> simp [specEntriesForKey]
  | cons r rest ih =>
    intro d d2 k h
    cases hpc : processCells headers 0 d r with
    | error msg => simp [processRows, hpc] at h
    | ok dmid =>
      simp only [processRows, hpc] at h
      obtain ⟨hk1, hg1⟩ := processCells_ok headers r 0 d dmid k hpc
      obtain ⟨hk2, hg2⟩ := ih dmid d2 k h
      refine ⟨hk2.trans hk1, ?_⟩
      rw [hg2, hg1]
      cases dictGet? d k <;> simp [specEntriesForKey]

/-- C8: when extraction succeeds, the resulting mapping's keys are exactly
the trimmed `th` texts in document order with duplicate names collapsed
(first-occurrence position, shared entry list), every header key holds a
(possibly empty) list, no list exists under a non-header key, and the list
under key `k` consists precisely of the entries of non-empty cells whose
column header is `k`, in row-then-column order. -/
theorem c8_keys_and_entries (tbl : TimetableTable) (t : Dict) (k : String)
    (h : scrape_timetable (some tbl) = ScrapeResult.ok t) :
    keys t = pyDedup tbl.headers ∧
    dictGet? t k = (if k ∈ tbl.headers then
      some (specEntriesForKey tbl.headers k (tbl.trs.drop 1)) else none) := by
  cases hp : processRows tbl.headers (initDict tbl.headers) (tbl.trs.drop 1) with
  | error msg => simp only [scrape_timetable, hp, reduceCtorEq] at h
  | ok t2 =>
    have ht2 : t2 = t := by
      simpa only [scrape_timetable, hp, ScrapeResult.ok.injEq] using h
    subst ht2
    obtain ⟨hk, hg⟩ := processRows_ok tbl.headers (tbl.trs.drop 1)
      (initDict tbl.headers) t2 k hp
    refine ⟨hk.trans (keys_initDict tbl.headers), ?_⟩
    rw [hg, dictGet?_initDict]
    by_cases hm : k ∈ tbl.headers <;> simp [hm]

/-- Witness for C8 at a table with a duplicated "Monday" header: both Monday
columns' entries end up, in order, under the single "Monday" key. -/
theorem c8_keys_and_entries_witness :
    keys dictC8 = pyDedup tblC8.headers ∧
    dictGet? dictC8 "Monday" = (if "Monday" ∈ tblC8.headers then
      some (specEntriesForKey tblC8.headers "Monday" (tblC8.trs.drop 1)) else none) :=
  c8_keys_and_entries tblC8 dictC8 "Monday" (by decide)

/-- Witness for the amended C10: the reversed range `Weeks 5-3` on a valid
entry yields a successful export containing zero occurrences. -/
theorem c10_reversed_range_empty_witness :
    expandEntry 0 0 entryC10 = Except.ok [] ∧
    export_to_ical [("Monday", [entryC10])] 0 = some [] :=
  c10_reversed_range_empty 0 "Monday" 0 entryC10 "Weeks 5-3" 5 3 rfl rfl
    (by decide)
    (fun sh sm eh em h => by
      rw [show parseTimeRange entryC10.time = some (9, 0, 10, 0) from rfl] at h
      simp only [Option.some.injEq, Prod.mk.injEq] at h
      omega)
    rfl
